import Mathlib

/-!
Shallow embedding of `tools.py` from the `fashion_assistant_bot` repository.

Python floats are modelled as exact rationals (`ℚ`), Python `datetime` values
as integer seconds since an arbitrary epoch, and Python `None`-able values as
`Option`.  The network/HTML boundary (`requests.get` + `BeautifulSoup`) is
modelled by an environment `env : String → Option (List Item)` mapping a search
URL to the parsed listing containers of the response (`none` models a
`requests.RequestException`); each `Item` carries the text of the title/price
elements found inside the container and the link element together with its
`href` attribute, exactly the data the extraction loop of `search_site` reads.
-/

namespace FashionBot

/-- The `Product` dataclass of `tools.py` (lines 11-22), with the same fields
and the same defaults (`size`/`color`/`description`/`shipping_time`/
`return_policy` default to `None`, `in_stock` to `True`). -/
structure Product where
  name : String
  price : ℚ
  website : String
  url : String
  size : Option String := none
  color : Option String := none
  description : Option String := none
  in_stock : Bool := true
  shipping_time : Option Int := none
  return_policy : Option String := none
deriving DecidableEq

/-- The `WEBSITES` global of `tools.py` (line 25). -/
def WEBSITES : List String :=
  ["amazon.com", "walmart.com", "target.com", "ebay.com", "flipkart.com"]

/-- The `PROMO_CODES` global of `tools.py` (lines 26-31); the float discount
fractions `0.10`, `0.20`, `0.30`, `0.15` become exact rationals. -/
def PROMO_CODES : List (String × ℚ) :=
  [("SAVE10", 1/10), ("SUMMER20", 2/10), ("FLASH30", 3/10), ("FIRSTORDER", 15/100)]

/-- Model of `p.startswith(s)` on character lists: first argument is the pattern,
second the string searched. -/
def startsWithCl : List Char → List Char → Bool
  | [], _ => true
  | _ :: _, [] => false
  | p :: ps, c :: cs => p == c && startsWithCl ps cs

/-- Python `s.startswith(pat)` for strings. -/
def startsWithStr (s pat : String) : Bool := startsWithCl pat.data s.data

/-- Embedding of `clean_url` from `tools.py` (lines 37-45).  The argument is an
`Option String` because `search_site` passes `url_elem.get('href')`, which is
`None` when the attribute is absent; Python's `if not url` is true exactly on
`None` and the empty string. -/
def clean_url (url : Option String) (site : String) : String :=
  match url with
  | none => ""
  | some u =>
    if u = "" then ""
    else if startsWithStr u "http://" || startsWithStr u "https://" then u
    else "https://www." ++ site ++ (if startsWithStr u "/" then u else "/" ++ u)

/-- Characters kept by the first `re.sub(r'[^\d.,]', '', _)` pass of
`clean_price` (digits, period, comma). -/
def isPriceChar1 (c : Char) : Bool := c.isDigit || c == '.' || c == ','

/-- Characters kept by the second `re.sub(r'[^\d.]', '', _)` pass of
`clean_price` (digits, period). -/
def isPriceChar2 (c : Char) : Bool := c.isDigit || c == '.'

/-- Numeric value of a digit string (most significant first). -/
def digitsToNat (cs : List Char) : Nat :=
  cs.foldl (fun n c => 10 * n + (c.toNat - 48)) 0

/-- Split a character list at its first `'.'`: returns the part before it and,
when a dot exists, the part after it. -/
def breakAtDot : List Char → List Char × Option (List Char)
  | [] => ([], none)
  | c :: rest =>
    if c == '.' then ([], some rest)
    else
      let p := breakAtDot rest
      (c :: p.1, p.2)

/-- Python `float(s)` restricted to strings made of digits and periods, the
only strings `clean_price` ever parses after its two stripping passes: it
succeeds iff the string has at most one period and at least one digit, and the
value is the usual decimal value, `float("a.b") = (digits of "ab") / 10^|b|`.
`none` models `ValueError`. -/
def pyFloatOfCleaned (cs : List Char) : Option ℚ :=
  let p := breakAtDot cs
  match p.2 with
  | none => if p.1.isEmpty then none else some (digitsToNat p.1 : ℚ)
  | some fracPart =>
    if fracPart.contains '.' then none
    else if p.1.isEmpty && fracPart.isEmpty then none
    else some (mkRat (digitsToNat (p.1 ++ fracPart)) (10 ^ fracPart.length))

/-- Embedding of `clean_price` from `tools.py` (lines 47-53): two character-stripping passes,
then a `float` parse whose failure (`ValueError`) is caught and turned into
`0.0`.  (The `TypeError` branch is unreachable for string input.) -/
def clean_price (s : String) : ℚ :=
  let pass2 := (s.data.filter isPriceChar1).filter isPriceChar2
  match pyFloatOfCleaned pass2 with
  | some q => q
  | none => 0

/-- Python-style whitespace characters for `str.strip()`. -/
def isSpaceChar (c : Char) : Bool := c == ' ' || c == '\t' || c == '\n' || c == '\r'

/-- Python `s.strip()`. -/
def pyStrip (s : String) : String :=
  String.mk (((s.data.dropWhile isSpaceChar).reverse.dropWhile isSpaceChar).reverse)

/-- The filter mapping accepted by `matches_filters` (lines 55-69).  Each
field is `some v` when the corresponding dict key is present with value `v`;
for `size`/`color` the value itself may be Python `None`, hence the nested
`Option`.  A value with all four fields `none` plays the role of both `None`
and the empty dict (both make `matches_filters` return `True`). -/
structure Filters where
  max_price : Option ℚ := none
  min_price : Option ℚ := none
  size : Option (Option String) := none
  color : Option (Option String) := none
deriving DecidableEq

/-- Embedding of `matches_filters` from `tools.py` (lines 55-69): the product passes iff no
present key rejects it (`max_price` rejects when `price > value`, `min_price`
when `price < value`, `size`/`color` when the field differs from the value). -/
def matches_filters (product : Product) (filters : Filters) : Bool :=
  (match filters.max_price with | none => true | some v => decide (product.price ≤ v)) &&
  (match filters.min_price with | none => true | some v => decide (v ≤ product.price)) &&
  (match filters.size with | none => true | some v => product.size == v) &&
  (match filters.color with | none => true | some v => product.color == v)

/-- One listing container found by `soup.find_all(class_=container)` in
`search_site`, carrying exactly what the loop body reads: the text of a truthy
title element, the text of a truthy price element, and — when a truthy link
element was found — the result of `.get('href')` on it (`none` = attribute
absent).  An absent/falsy element is `none`. -/
structure Item where
  name_elem : Option String := none
  price_elem : Option String := none
  url_elem : Option (Option String) := none
deriving DecidableEq

/-- The body of the `for item in soup.find_all(...)` loop of `search_site`
(lines 107-130) for one container: require all three elements, clean the
price, require it positive, build the `Product`, and keep it only if it
matches the filters.  `none` means the listing contributes nothing. -/
def extract_item (site : String) (filters : Filters) (item : Item) : Option Product :=
  match item.name_elem, item.price_elem, item.url_elem with
  | some name_text, some price_text, some href =>
    let price := clean_price (pyStrip price_text)
    if 0 < price then
      let product : Product :=
        { name := pyStrip name_text, price := price, website := site,
          url := clean_url href site, in_stock := true }
      if matches_filters product filters then some product else none
    else none
  | _, _, _ => none

/-- The extraction loop of `search_site`: successive `products.append`. -/
def extract_loop (site : String) (filters : Filters) : List Item → List Product
  | [] => []
  | item :: rest =>
    match extract_item site filters item with
    | some product => product :: extract_loop site filters rest
    | none => extract_loop site filters rest

/-- The `search_query_url_tag` dict of `search_site` (lines 74-80). -/
def search_query_url_tag : List (String × String) :=
  [("amazon.com", "s?k="), ("walmart.com", "search?q="), ("target.com", "s?searchTerm="),
   ("ebay.com", "sch/i.html?_nkw="), ("flipkart.com", "search?q=")]

/-- Python `query.replace(' ', '+')`. -/
def plusQuery (query : String) : String :=
  String.mk (query.data.map (fun c => if c == ' ' then '+' else c))

/-- The `search_url` f-string of `search_site` (line 81). -/
def build_search_url (site query : String) : String :=
  "https://www." ++ site ++ "/" ++ ((search_query_url_tag.lookup site).getD "") ++ plusQuery query

/-- Predicate for `selectors.get(site)` being non-`None` exactly for these two sites
(lines 87-102). -/
def has_selectors (site : String) : Bool := site == "amazon.com" || site == "walmart.com"

/-- Embedding of `search_site` from `tools.py` (lines 71-136).  `env` models the composition
of `requests.get` and HTML parsing: it maps the search URL to the parsed
listing containers, `none` modelling a `requests.RequestException` (which the
source catches, logs and converts to `[]`).  Sites without selectors return
`[]`; otherwise the extraction loop runs and the result is truncated by
`products[:5]`. -/
def search_site (env : String → Option (List Item)) (site query : String)
    (filters : Filters) : List Product :=
  match env (build_search_url site query) with
  | none => []
  | some items =>
    if has_selectors site then (extract_loop site filters items).take 5
    else []

/-- Sorting key of `products.sort(key=lambda x: x.price)`: comparison of the
`price` fields. -/
def priceLE (a b : Product) : Prop := a.price ≤ b.price

instance : DecidableRel priceLE :=
  fun a b => inferInstanceAs (Decidable (a.price ≤ b.price))

instance : IsTotal Product priceLE := ⟨fun a b => le_total a.price b.price⟩

instance : IsTrans Product priceLE := ⟨fun _ _ _ hab hbc => le_trans hab hbc⟩

/-- Embedding of `search_products` from `tools.py` (lines 138-151): run `search_site` for
every site of `WEBSITES` (the executor's `map` preserves the order of
`WEBSITES`), concatenate the per-site lists with `products.extend`, and apply
the stable `list.sort(key=lambda x: x.price)`, modelled by insertion sort on
`priceLE` (extensionally the unique stable sort by that key). -/
def search_products (env : String → Option (List Item)) (query : String)
    (filters : Filters) : List Product :=
  let all_results := WEBSITES.map (fun site => search_site env site query filters)
  let products := all_results.flatten
  products.insertionSort priceLE

/-- One entry of the `shipping_options` dict of `estimate_shipping`
(lines 155-171): cost, transit days, carrier. -/
structure ShipOption where
  cost : ℚ
  days : Int
  carrier : String
deriving DecidableEq

/-- The fixed `shipping_options` catalog, in dict insertion order; the float
costs `5.99`, `12.99`, `24.99` become exact rationals. -/
def shipping_options : List (String × ShipOption) :=
  [("standard", ⟨599/100, 5, "USPS"⟩),
   ("expedited", ⟨1299/100, 2, "FedEx"⟩),
   ("overnight", ⟨2499/100, 1, "UPS"⟩)]

/-- The two dict shapes `estimate_shipping` can return: the full catalog when
no target date is given, or the deadline summary (`available_options`,
`meets_deadline`, `cheapest_option`). -/
inductive ShippingEstimate where
  | all_options (available_options : List (String × ShipOption))
  | deadline (available_options : List (String × ShipOption)) (meets_deadline : Bool)
      (cheapest_option : Option (String × ShipOption))
deriving DecidableEq

/-- Python `min(options.items(), key=lambda x: x[1]['cost'])` on the (ordered)
option list: the first entry of minimal cost, `none` on the empty list (the
source guards that case and returns `None`). -/
def min_by_cost : List (String × ShipOption) → Option (String × ShipOption)
  | [] => none
  | x :: xs => some (xs.foldl (fun acc y => if y.2.cost < acc.2.cost then y else acc) x)

/-- Embedding of `estimate_shipping` from `tools.py` (lines 153-185).  `datetime` values are
integer seconds; `(target_date - datetime.now()).days` is the floor division
of the difference by 86400, which is what `timedelta.days` computes.  Any
`datetime` is truthy in Python, so the `if target_date:` test is exactly the
`Option` match. -/
def estimate_shipping (product : Product) (zip_code : String)
    (target_date : Option Int) (now : Int) : ShippingEstimate :=
  match target_date with
  | some target =>
    let days_needed : Int := (target - now).fdiv 86400
    let available := shipping_options.filter (fun kv => decide (kv.2.days ≤ days_needed))
    ShippingEstimate.deadline available (decide (0 < available.length)) (min_by_cost available)
  | none => ShippingEstimate.all_options shipping_options

/-- Python `code.upper()` (ASCII suffices for the promo table). -/
def upperStr (s : String) : String := String.mk (s.data.map Char.toUpper)

/-- The two dict shapes `check_promo` can return (lines 193-203). -/
inductive PromoResult where
  | valid_result (discount_percentage original_price final_price savings : ℚ)
  | invalid (message : String)
deriving DecidableEq

/-- Embedding of `check_promo` from `tools.py` (lines 187-203): uppercase the code, look it
up in `PROMO_CODES`; on a hit return the discounted summary, otherwise the
invalid-code record. -/
def check_promo (code : String) (base_price : ℚ) : PromoResult :=
  match PROMO_CODES.lookup (upperStr code) with
  | some discount =>
    let final_price := base_price * (1 - discount)
    PromoResult.valid_result (discount * 100) base_price final_price (base_price - final_price)
  | none => PromoResult.invalid "Invalid promo code"

/-- The path of a non-absolute link with its leading slash removed (when it
has one); used to state the exactly-one-separating-slash property of
`clean_url`. -/
def dropSlash (u : String) : String :=
  match u.data with
  | '/' :: rest => String.mk rest
  | _ => u

/-- The empty filter mapping (Python `None` or `{}`). -/
def noFilters : Filters := {}

/-- Concrete listing containers for the document-order demonstration: five
survivors priced 10, 20, 30, 40, 50 followed by a sixth, cheapest one
priced 1. -/
def demo_items : List Item :=
  [{ name_elem := some "A", price_elem := some "10", url_elem := some (some "/a") },
   { name_elem := some "B", price_elem := some "20", url_elem := some (some "/b") },
   { name_elem := some "C", price_elem := some "30", url_elem := some (some "/c") },
   { name_elem := some "D", price_elem := some "40", url_elem := some (some "/d") },
   { name_elem := some "E", price_elem := some "50", url_elem := some (some "/e") },
   { name_elem := some "F", price_elem := some "1", url_elem := some (some "/f") }]

/-- Environment serving `demo_items` for the amazon search URL. -/
def demo_env : String → Option (List Item) :=
  fun url => if url = build_search_url "amazon.com" "q" then some demo_items else none

/-- A listing whose link element is present but carries no `href` attribute. -/
def href_item : Item :=
  { name_elem := some "Shirt", price_elem := some "$5.00", url_elem := some none }

/-- Environment serving `href_item` for the amazon search URL. -/
def href_env : String → Option (List Item) :=
  fun url => if url = build_search_url "amazon.com" "dress" then some [href_item] else none

/-- The product `search_site` builds from `href_item`: its `url` is the empty
string. -/
def href_product : Product :=
  { name := "Shirt", price := 5, website := "amazon.com", url := "" }

/-- Environment with one well-formed listing on amazon. -/
def sample_env : String → Option (List Item) :=
  fun url =>
    if url = build_search_url "amazon.com" "q" then
      some [{ name_elem := some "Dress", price_elem := some "$9", url_elem := some (some "/d") }]
    else none

/-- A filter mapping whose `size` key holds the non-`None` value `"M"`. -/
def size_filter : Filters := { size := some (some "M") }

/-- Environment with two listings of equal price 7 on two different sites. -/
def tie_env : String → Option (List Item) :=
  fun url =>
    if url = build_search_url "amazon.com" "q" then
      some [{ name_elem := some "A", price_elem := some "7", url_elem := some (some "/a") }]
    else if url = build_search_url "walmart.com" "q" then
      some [{ name_elem := some "B", price_elem := some "7", url_elem := some (some "/b") }]
    else none

/-- The amazon product of `tie_env`. -/
def tie_a : Product :=
  { name := "A", price := 7, website := "amazon.com", url := "https://www.amazon.com/a" }

/-- The walmart product of `tie_env`, same price as `tie_a`. -/
def tie_b : Product :=
  { name := "B", price := 7, website := "walmart.com", url := "https://www.walmart.com/b" }

/-- A dummy product for shipping-estimate instantiations. -/
def sample_product : Product :=
  { name := "x", price := 1, website := "amazon.com", url := "https://www.amazon.com/x" }

/-! ### Helper lemmas -/

@[simp] theorem beq_none_some_str (v : String) : ((none : Option String) == some v) = false := rfl

theorem extract_loop_eq_filterMap (site : String) (filters : Filters) (items : List Item) :
    extract_loop site filters items = items.filterMap (extract_item site filters) := by
  induction items with
  | nil => rfl
  | cons item rest ih =>
    simp only [extract_loop, List.filterMap_cons]
    cases extract_item site filters item <;> simp [ih]

theorem extract_item_fields {site : String} {filters : Filters} {it : Item} {p : Product}
    (h : extract_item site filters it = some p) :
    p.size = none ∧ p.color = none ∧ p.in_stock = true ∧ p.shipping_time = none ∧
      p.return_policy = none := by
  obtain ⟨n, pr, u⟩ := it
  cases n with
  | none => simp [extract_item] at h
  | some nt =>
    cases pr with
    | none => simp [extract_item] at h
    | some pt =>
      cases u with
      | none => simp [extract_item] at h
      | some href =>
        simp only [extract_item] at h
        split at h
        · split at h
          · obtain rfl := Option.some.inj h
            exact ⟨rfl, rfl, rfl, rfl, rfl⟩
          · cases h
        · cases h

theorem extract_item_none_of_filter {site : String} {filters : Filters} {v : String}
    (hv : filters.size = some (some v) ∨ filters.color = some (some v)) (it : Item) :
    extract_item site filters it = none := by
  obtain ⟨n, pr, u⟩ := it
  cases n with
  | none => rfl
  | some nt =>
    cases pr with
    | none => rfl
    | some pt =>
      cases u with
      | none => rfl
      | some href =>
        simp only [extract_item]
        have hm : ∀ prod : Product, prod.size = none → prod.color = none →
            matches_filters prod filters = false := by
          intro prod h1 h2
          rcases hv with h | h <;> simp [matches_filters, h, h1, h2]
        split
        · rw [hm _ rfl rfl]
          simp
        · rfl

theorem search_site_eq_nil_of_extract {env : String → Option (List Item)} {site query : String}
    {filters : Filters} (h : ∀ it, extract_item site filters it = none) :
    search_site env site query filters = [] := by
  unfold search_site
  cases env (build_search_url site query) with
  | none => rfl
  | some items =>
    have hl : extract_loop site filters items = [] := by
      induction items with
      | nil => rfl
      | cons it rest ih => simp [extract_loop, h it, ih]
    simp [hl]

theorem search_products_eq_nil {env : String → Option (List Item)} {query : String}
    {filters : Filters} (h : ∀ site, site ∈ WEBSITES → search_site env site query filters = []) :
    search_products env query filters = [] := by
  have h1 := h "amazon.com" (by simp [WEBSITES])
  have h2 := h "walmart.com" (by simp [WEBSITES])
  have h3 := h "target.com" (by simp [WEBSITES])
  have h4 := h "ebay.com" (by simp [WEBSITES])
  have h5 := h "flipkart.com" (by simp [WEBSITES])
  simp [search_products, WEBSITES, h1, h2, h3, h4, h5, List.insertionSort]

theorem search_site_env_none {env : String → Option (List Item)} {site query : String}
    {filters : Filters} (h : env (build_search_url site query) = none) :
    search_site env site query filters = [] := by
  unfold search_site
  rw [h]

theorem search_site_env_some {env : String → Option (List Item)} {site query : String}
    {filters : Filters} {items : List Item}
    (h : env (build_search_url site query) = some items) :
    search_site env site query filters =
      if has_selectors site then (extract_loop site filters items).take 5 else [] := by
  unfold search_site
  rw [h]

theorem pyFloatOfCleaned_nonneg {cs : List Char} {q : ℚ}
    (h : pyFloatOfCleaned cs = some q) : 0 ≤ q := by
  simp only [pyFloatOfCleaned] at h
  split at h
  · split at h
    · cases h
    · obtain rfl := Option.some.inj h
      exact Nat.cast_nonneg _
  · split at h
    · cases h
    · split at h
      · cases h
      · obtain rfl := Option.some.inj h
        rw [Rat.mkRat_eq_div]
        positivity

theorem data_of_startsWith_slash {u : String} (h : startsWithStr u "/" = true) :
    u.data = '/' :: u.data.tail := by
  have hx : startsWithCl ['/'] u.data = true := h
  rcases hu : u.data with _ | ⟨c, cs⟩
  · rw [hu] at hx
    cases hx
  · rw [hu] at hx
    simp only [startsWithCl, Bool.and_true, beq_iff_eq] at hx
    subst hx
    simp [hu]

theorem mk_append (a b : List Char) : String.mk a ++ String.mk b = String.mk (a ++ b) := rfl

/-! ### Claim theorems -/

/-- C3: for every input string, `clean_price` is total and returns either the
non-negative decimal value of the remainder of its two stripping passes
(strip everything not a digit/period/comma, then everything not a
digit/period) or `0` when that remainder is empty or unparseable; it never
yields a negative value. -/
theorem clean_price_safe (s : String) :
    0 ≤ clean_price s ∧
    (∀ q, pyFloatOfCleaned ((s.data.filter isPriceChar1).filter isPriceChar2) = some q →
      clean_price s = q) ∧
    (pyFloatOfCleaned ((s.data.filter isPriceChar1).filter isPriceChar2) = none →
      clean_price s = 0) := by
  refine ⟨?_, ?_, ?_⟩
  · rcases hp : pyFloatOfCleaned ((s.data.filter isPriceChar1).filter isPriceChar2) with _ | q
    · simp only [clean_price]
      rw [hp]
    · have hq := pyFloatOfCleaned_nonneg hp
      simp only [clean_price]
      rw [hp]
      exact hq
  · intro q hq
    simp only [clean_price]
    rw [hq]
  · intro hn
    simp only [clean_price]
    rw [hn]

/-- C3 witness: on the concrete malformed-ish input `"$19.99"` the cleaner
returns the non-negative value `1999/100`. -/
theorem clean_price_safe_witness :
    0 ≤ clean_price "$19.99" ∧ clean_price "$19.99" = mkRat 1999 100 :=
  ⟨(clean_price_safe "$19.99").1,
   (clean_price_safe "$19.99").2.1 (mkRat 1999 100) (by decide)⟩

/-- C6: a non-empty link that does not start with `http://` or `https://` is
rewritten by `clean_url` to `https://www.<site><path>` with exactly one slash
between the site and the path (a leading slash is reused, an absent one is
inserted); a link with an absolute scheme is returned unchanged; and
`clean_url("/p/123", "example.com") = "https://www.example.com/p/123"`. -/
theorem clean_url_relative_rewrite (url site : String) :
    (url ≠ "" → startsWithStr url "http://" = false → startsWithStr url "https://" = false →
      clean_url (some url) site = "https://www." ++ site ++ "/" ++ dropSlash url) ∧
    (startsWithStr url "http://" = true ∨ startsWithStr url "https://" = true →
      clean_url (some url) site = url) ∧
    clean_url (some "/p/123") "example.com" = "https://www.example.com/p/123" := by
  refine ⟨?_, ?_, by decide⟩
  · intro hne h1 h2
    simp only [clean_url, if_neg hne, h1, h2, Bool.or_self, Bool.false_eq_true, if_false]
    cases hs : startsWithStr url "/" with
    | true =>
      simp only [if_true]
      have hd := data_of_startsWith_slash hs
      rcases hu : url.data with _ | ⟨c, t⟩
      · rw [hu] at hd
        cases hd
      · have hc : c = '/' := by
          rw [hu] at hd
          exact (List.cons.inj hd).1
        subst hc
        have hurl : url = String.mk ('/' :: t) := by
          cases url with
          | mk d => exact congrArg String.mk hu
        have hdrop : dropSlash url = String.mk t := by
          unfold dropSlash
          rw [hu]
          rfl
        rw [hdrop, hurl]
        cases hsite : ("https://www." ++ site) with
        | mk d =>
          show String.mk (d ++ '/' :: t) = String.mk ((d ++ ['/']) ++ t)
          rw [List.append_assoc]
          rfl
    | false =>
      simp only [Bool.false_eq_true, if_false]
      have hdrop : dropSlash url = url := by
        unfold dropSlash
        split
        next rest heq =>
          exfalso
          have hx : startsWithCl ['/'] url.data = true := by
            rw [heq]
            simp [startsWithCl]
          have hx2 : startsWithStr url "/" = true := hx
          rw [hx2] at hs
          cases hs
        next h4 =>
          rfl
      rw [hdrop]
      cases url with
      | mk d =>
        cases hsite : ("https://www." ++ site) with
        | mk e =>
          show String.mk (e ++ '/' :: d) = String.mk ((e ++ ['/']) ++ d)
          rw [List.append_assoc]
          rfl
  · intro h
    have hne : ¬ url = "" := by
      intro he
      subst he
      rcases h with h | h <;> cases h
    rcases h with h | h <;> simp [clean_url, if_neg hne, h]

/-- C6 witness: the general rewrite applied to the concrete relative link
`"/p/123"` on site `"example.com"`. -/
theorem clean_url_relative_rewrite_witness :
    clean_url (some "/p/123") "example.com" =
      "https://www." ++ "example.com" ++ "/" ++ dropSlash "/p/123" :=
  (clean_url_relative_rewrite "/p/123" "example.com").1 (by decide) (by decide) (by decide)

/-- C7: `check_promo` uppercases the code and looks it up in `PROMO_CODES`;
a hit yields the valid record with discount percentage `d*100`, the original
price, final price `base*(1-d)` and savings `base - final`; a miss yields the
invalid-code record (never an error); and concretely
`check_promo("save10", 100)` is valid with 10% discount, final price 90 and
savings 10. -/
theorem check_promo_spec (code : String) (base_price : ℚ) :
    (∀ d, PROMO_CODES.lookup (upperStr code) = some d →
      check_promo code base_price =
        PromoResult.valid_result (d * 100) base_price (base_price * (1 - d))
          (base_price - base_price * (1 - d))) ∧
    (PROMO_CODES.lookup (upperStr code) = none →
      check_promo code base_price = PromoResult.invalid "Invalid promo code") ∧
    check_promo "save10" 100 = PromoResult.valid_result 10 100 90 10 := by
  refine ⟨?_, ?_, ?_⟩
  · intro d hd
    simp [check_promo, hd]
  · intro hn
    simp [check_promo, hn]
  · have h : check_promo "save10" 100 =
        PromoResult.valid_result ((1/10) * 100) 100 (100 * (1 - 1/10))
          (100 - 100 * (1 - 1/10)) := rfl
    rw [h]
    norm_num

/-- C7 witness: the lookup branch applied to the concrete lower-case code
`"flash30"` with base price 200. -/
theorem check_promo_spec_witness :
    check_promo "flash30" 200 =
      PromoResult.valid_result ((3/10) * 100) 200 (200 * (1 - 3/10))
        (200 - 200 * (1 - 3/10)) :=
  (check_promo_spec "flash30" 200).1 (3/10) rfl

/-- C8: with a target date strictly in the past, the floored day difference is
negative, so no shipping option qualifies: the available set is empty,
`meets_deadline` is `false` and the cheapest qualifying option is `none`. -/
theorem estimate_shipping_past_deadline (product : Product) (zip_code : String)
    (target now : Int) (h : target < now) :
    estimate_shipping product zip_code (some target) now =
      ShippingEstimate.deadline [] false none := by
  have hneg : (target - now).fdiv 86400 < 0 :=
    Int.fdiv_neg' (by omega) (by omega)
  simp only [estimate_shipping]
  have he : shipping_options.filter
      (fun kv => decide (kv.2.days ≤ (target - now).fdiv 86400)) = [] := by
    simp only [shipping_options, List.filter]
    rw [decide_eq_false (by omega), decide_eq_false (by omega), decide_eq_false (by omega)]
  rw [he]
  rfl

/-- C8 witness: a concrete call whose target date lies one day in the past. -/
theorem estimate_shipping_past_deadline_witness :
    estimate_shipping sample_product "10001" (some 0) 86400 =
      ShippingEstimate.deadline [] false none :=
  estimate_shipping_past_deadline sample_product "10001" 0 86400 (by decide)

/-- C10: the result of `estimate_shipping` is independent of its `product`
and `zip_code` arguments — the shipping catalog and the deadline computation
read neither. -/
theorem estimate_shipping_ignores_product_zip (p1 p2 : Product) (z1 z2 : String)
    (target_date : Option Int) (now : Int) :
    estimate_shipping p1 z1 target_date now = estimate_shipping p2 z2 target_date now := rfl

/-- C1: `search_products` returns a list that is sorted ascending by price,
is a permutation of the concatenation of the per-site lists (in `WEBSITES`
order, the order the executor's `map` preserves), and is stable: two products
of equal price keep the relative order they had in the concatenated pre-sort
list. -/
theorem search_products_sorted_stable (env : String → Option (List Item))
    (query : String) (filters : Filters) :
    (search_products env query filters).Sorted priceLE ∧
    List.Perm (search_products env query filters)
      ((WEBSITES.map (fun site => search_site env site query filters)).flatten) ∧
    (∀ a b : Product, a.price = b.price →
      List.Sublist [a, b]
        ((WEBSITES.map (fun site => search_site env site query filters)).flatten) →
      List.Sublist [a, b] (search_products env query filters)) := by
  refine ⟨?_, ?_, ?_⟩
  · exact List.sorted_insertionSort priceLE _
  · exact List.perm_insertionSort priceLE _
  · intro a b hab hsub
    exact List.pair_sublist_insertionSort (show priceLE a b from le_of_eq hab) hsub

/-- C1 witness: two equal-priced products from two different sites keep their
concatenation order in the sorted output. -/
theorem search_products_sorted_stable_witness :
    List.Sublist [tie_a, tie_b] (search_products tie_env "q" noFilters) :=
  (search_products_sorted_stable tie_env "q" noFilters).2.2 tie_a tie_b (by decide) (by decide)

/-- C2: if every site's fetch fails, `search_products` returns the empty list
rather than raising; a site's result depends only on the environment's answer
for that site's own search URL (so one site's network failure cannot alter
another site's list); and every product of every per-site list still appears
in the aggregated output. -/
theorem search_products_failure_containment (env : String → Option (List Item))
    (query : String) (filters : Filters) :
    ((∀ site, site ∈ WEBSITES → env (build_search_url site query) = none) →
      search_products env query filters = []) ∧
    (∀ env2 site, env2 (build_search_url site query) = env (build_search_url site query) →
      search_site env2 site query filters = search_site env site query filters) ∧
    (∀ site, site ∈ WEBSITES → ∀ p, p ∈ search_site env site query filters →
      p ∈ search_products env query filters) := by
  refine ⟨?_, ?_, ?_⟩
  · intro hfail
    exact search_products_eq_nil (fun site hsite => search_site_env_none (hfail site hsite))
  · intro env2 site hagree
    simp [search_site, hagree]
  · intro site hsite p hp
    have hc : p ∈ (WEBSITES.map (fun s => search_site env s query filters)).flatten :=
      List.mem_flatten.2 ⟨_, List.mem_map_of_mem _ hsite, hp⟩
    exact (List.mem_insertionSort priceLE).2 hc

/-- C2 witness: with every fetch failing, the aggregate search returns `[]`. -/
theorem search_products_failure_containment_witness :
    search_products (fun _ => none) "q" noFilters = [] :=
  (search_products_failure_containment (fun _ => none) "q" noFilters).1 (fun _ _ => rfl)

/-- C4: when the fetch succeeds, `search_site` returns at most 5 products,
namely the first (at most) 5 surviving candidates in document order; on the
concrete `demo_items` (whose sixth survivor is the cheapest) this differs
from the 5 lowest-priced survivors. -/
theorem search_site_cap_five (env : String → Option (List Item)) (site query : String)
    (filters : Filters) (items : List Item)
    (h : env (build_search_url site query) = some items) :
    (search_site env site query filters).length ≤ 5 ∧
    (has_selectors site = true →
      search_site env site query filters =
        (items.filterMap (extract_item site filters)).take 5) ∧
    search_site demo_env "amazon.com" "q" noFilters ≠
      ((demo_items.filterMap (extract_item "amazon.com" noFilters)).insertionSort
        priceLE).take 5 := by
  refine ⟨?_, ?_, by decide⟩
  · rw [search_site_env_some h]
    split
    · simp only [List.length_take]
      exact min_le_left _ _
    · simp
  · intro hsel
    rw [search_site_env_some h, if_pos hsel, extract_loop_eq_filterMap]

/-- C4 witness: the cap and document-order law applied to the concrete
`demo_env`. -/
theorem search_site_cap_five_witness :
    search_site demo_env "amazon.com" "q" noFilters =
      (demo_items.filterMap (extract_item "amazon.com" noFilters)).take 5 :=
  (search_site_cap_five demo_env "amazon.com" "q" noFilters demo_items (by decide)).2.1
    (by decide)

/-- C5 counterexample: `href_item`'s link element is present but its `href`
is absent, yet the listing is NOT skipped — `search_site` emits a `Product`
for it (with `url = ""`), contradicting the claim that no `Product` for such
a listing appears in the output. -/
theorem empty_href_listing_not_skipped :
    search_site href_env "amazon.com" "dress" noFilters = [href_product] ∧
    href_product.url = "" := by
  refine ⟨by decide, rfl⟩

/-- C5 amended: only a missing link element causes the listing to be skipped;
when the link element is present but its `href` is absent or the empty
string, a `Product` is still emitted and its `url` is the empty string
(`clean_url` maps a missing or empty `href` to `""`). -/
theorem missing_link_element_skips (site : String) (filters : Filters) (it : Item) :
    (it.url_elem = none → extract_item site filters it = none) ∧
    (∀ href p, it.url_elem = some href → (href = none ∨ href = some "") →
      extract_item site filters it = some p → p.url = "") := by
  obtain ⟨n, pr, u⟩ := it
  constructor
  · intro hu
    subst hu
    cases n <;> cases pr <;> rfl
  · intro href p hu hhref hext
    subst hu
    cases n with
    | none => cases hext
    | some nt =>
      cases pr with
      | none => cases hext
      | some pt =>
        simp only [extract_item] at hext
        split at hext
        · split at hext
          · obtain rfl := Option.some.inj hext
            show clean_url href site = ""
            rcases hhref with rfl | rfl
            · rfl
            · rfl
          · cases hext
        · cases hext

/-- C5 amended witness: the empty-`href` listing yields a product whose `url`
is the empty string. -/
theorem missing_link_element_skips_witness : href_product.url = "" :=
  (missing_link_element_skips "amazon.com" noFilters href_item).2 none href_product rfl
    (Or.inl rfl) (by decide)

/-- C9: every product constructed by `search_site` carries the constructor
defaults (`size = none`, `color = none`, `in_stock = true`,
`shipping_time = none`, `return_policy = none`); consequently a filter
mapping whose `size` or `color` key holds a non-`None` value forces
`search_site` — and hence `search_products` — to return the empty list. -/
theorem search_site_default_fields :
    (∀ env site query filters p, p ∈ search_site env site query filters →
      p.size = none ∧ p.color = none ∧ p.in_stock = true ∧ p.shipping_time = none ∧
        p.return_policy = none) ∧
    (∀ env site query filters v,
      (filters.size = some (some v) ∨ filters.color = some (some v)) →
      search_site env site query filters = [] ∧ search_products env query filters = []) := by
  constructor
  · intro env site query filters p hp
    rcases henv : env (build_search_url site query) with _ | items
    · rw [search_site_env_none henv] at hp
      cases hp
    · rw [search_site_env_some henv] at hp
      by_cases hsel : has_selectors site = true
      · rw [if_pos hsel] at hp
        have hp2 := List.mem_of_mem_take hp
        rw [extract_loop_eq_filterMap] at hp2
        obtain ⟨it, -, heq⟩ := List.mem_filterMap.1 hp2
        exact extract_item_fields heq
      · rw [if_neg hsel] at hp
        cases hp
  · intro env site query filters v hv
    have hnil : ∀ s : String, search_site env s query filters = [] :=
      fun s => search_site_eq_nil_of_extract (extract_item_none_of_filter hv)
    exact ⟨hnil site, search_products_eq_nil (fun s _ => hnil s)⟩

/-- C9 witness: an environment that produces a product under the empty filter
produces none once the filter carries `size = "M"`. -/
theorem search_site_default_fields_witness :
    search_site sample_env "amazon.com" "q" size_filter = [] ∧
    search_products sample_env "q" size_filter = [] :=
  (search_site_default_fields).2 sample_env "amazon.com" "q" size_filter "M" (Or.inl rfl)

end FashionBot
